import Mathlib

/-!
# Verification of the `ete` terminal text editor core

Shallow embedding of `src/text_editor.rs` (struct `TextEditor` and its
methods) together with proofs about the editor's data model, edit
operations and document lifecycle.

Modelling conventions:
* A Rust `String` line is modelled as a `List Char` (`Line`).  Rust's
  byte-offset char-boundary conditions degenerate, on this character-level
  model, to plain bounds checks (`col ≤ line.length`).
* Rust `usize` is modelled as `Nat`.  `usize::saturating_sub` is exactly
  `Nat.sub` (which saturates at 0).  `usize::saturating_add` is modelled as
  `Nat.add`: the two differ only above `usize::MAX`, and every observable
  result below is clamped to `lines.length - 1` (resp. the line length),
  which in a real process is far below `usize::MAX`, so the post-clamp
  behaviour agrees.
* Total functions below use `List.getD _ []` where the Rust code indexes
  `self.lines[...]`; separate `...Checked` variants return `none` exactly
  where the Rust code would panic (out-of-bounds index, underflow of
  `self.lines.len() - 1`, `String::insert`/`remove` boundary violation).
* File I/O is abstracted: `open_file` takes the existence flag and the
  file contents, `saveContents` is the byte sequence `save` writes.
-/

/-- A text line: Rust `String`, viewed as its character sequence. -/
abbrev Line := List Char

/-- The `TextEditor` struct from `src/text_editor.rs` (the `path` field is
omitted: it is only threaded through to the abstracted file system). -/
structure TextEditor where
  alive : Bool
  saved : Bool
  lines : List Line
  cursor_row : Nat
  cursor_col : Nat
  cursor_col_offset : Nat
  deriving Repr, DecidableEq

/-- The `Direction` enum from `src/text_editor.rs`. -/
inductive Direction where
  | up
  | right
  | down
  | left
  | front
  | back
  deriving Repr, DecidableEq

namespace TextEditor

/-- The cursor invariant of the spec: `0 ≤ row < len(lines)` and
`0 ≤ col ≤ len(lines[row])` (the lower bounds are free on `Nat`). -/
def cursorInv (e : TextEditor) : Prop :=
  e.cursor_row < e.lines.length ∧
    e.cursor_col ≤ (e.lines.getD e.cursor_row []).length

instance (e : TextEditor) : Decidable e.cursorInv := by
  unfold cursorInv; infer_instance

/-- `TextEditor::open_file`: `exists_` tells whether `path.exists()`, and
`contents` is what `fs::read_to_string` returns in that case.
`rustLines` below models `str::lines()`. -/
def rustLinesStripCR (l : Line) : Line :=
  if l.getLast? = some '\r' then l.dropLast else l

/-- `str::lines()` on a character sequence: split on `'\n'` used as a
terminator (a final `'\n'` yields no extra empty piece); every piece that
was terminated by a `'\n'` has one trailing `'\r'` stripped; a final
unterminated piece is kept verbatim. -/
def rustLinesAux : List Char → List Char → List Line
  | [], acc => if acc.isEmpty then [] else [acc.reverse]
  | c :: rest, acc =>
    if c = '\n' then rustLinesStripCR acc.reverse :: rustLinesAux rest []
    else rustLinesAux rest (c :: acc)

def rustLines (s : List Char) : List Line :=
  rustLinesAux s []

def open_file (exists_ : Bool) (contents : List Char) : TextEditor :=
  if exists_ then
    { alive := true
      saved := true
      lines := rustLines contents
      cursor_row := 0
      cursor_col := 0
      cursor_col_offset := 2 }
  else
    { alive := true
      saved := false
      lines := [[]]
      cursor_row := 0
      cursor_col := 0
      cursor_col_offset := 2 }

/-- The byte sequence `TextEditor::save` writes: each line followed by a
newline (`writeln!`), including the last. -/
def saveContents (lines : List Line) : List Char :=
  lines.foldr (fun l acc => l ++ '\n' :: acc) []

/-- The in-memory effect of `TextEditor::save` (the file write is
abstracted into `saveContents`). -/
def save (e : TextEditor) : TextEditor :=
  { e with saved := true }

/-- The clamp step at the end of `TextEditor::move_cursor` (lines 194-202):
pull `cursor_row` below `lines.len()` and `cursor_col` to at most the
current line's length. -/
def clampState (e : TextEditor) : TextEditor :=
  let e2 :=
    if e.cursor_row ≥ e.lines.length then
      { e with cursor_row := e.lines.length - 1 }
    else e
  let current_line := e2.lines.getD e2.cursor_row []
  if e2.cursor_col > current_line.length then
    { e2 with cursor_col := current_line.length }
  else e2

/-- `TextEditor::move_cursor`. -/
def move_cursor (e : TextEditor) (direction : Direction) : TextEditor :=
  let e1 :=
    match direction with
    | .up => { e with cursor_row := e.cursor_row - 1 }
    | .right => { e with cursor_col := e.cursor_col + 1 }
    | .down => { e with cursor_row := e.cursor_row + 1 }
    | .left => { e with cursor_col := e.cursor_col - 1 }
    | .front => { e with cursor_col := 0 }
    | .back => { e with cursor_col := (e.lines.getD e.cursor_row []).length }
  clampState e1

/-- `TextEditor::insert_new_line`. -/
def insert_new_line (e : TextEditor) : TextEditor :=
  let e1 :=
    if e.cursor_col = 0 then
      { e with lines := e.lines.insertIdx e.cursor_row [] }
    else if e.cursor_col = (e.lines.getD e.cursor_row []).length then
      { e with lines := e.lines.insertIdx (e.cursor_row + 1) [] }
    else
      let cur := e.lines.getD e.cursor_row []
      let new_line := cur.drop e.cursor_col
      { e with
          lines :=
            (e.lines.set e.cursor_row (cur.take e.cursor_col)).insertIdx
              (e.cursor_row + 1) new_line }
  { e1 with cursor_row := e1.cursor_row + 1, cursor_col := 0, saved := false }

/-- `TextEditor::clear_line`.  Note: the Rust code does not touch
`self.saved` here. -/
def clear_line (e : TextEditor) : TextEditor :=
  { e with lines := e.lines.set e.cursor_row [], cursor_col := 0 }

/-- `TextEditor::insert_char`. -/
def insert_char (e : TextEditor) (c : Char) : TextEditor :=
  let cur := e.lines.getD e.cursor_row []
  { e with
      lines := e.lines.set e.cursor_row (cur.insertIdx e.cursor_col c)
      cursor_col := e.cursor_col + 1
      saved := false }

/-- `TextEditor::erase_char`. -/
def erase_char (e : TextEditor) : TextEditor :=
  if e.cursor_col > 0 then
    let cur := e.lines.getD e.cursor_row []
    { e with
        lines := e.lines.set e.cursor_row (cur.eraseIdx (e.cursor_col - 1))
        cursor_col := e.cursor_col - 1
        saved := false }
  else if e.cursor_row > 0 then
    -- `self.cursor_col = self.lines[self.cursor_row - 1].len()` runs
    -- before the removal, so it reads the pre-merge previous line.
    let prev_len := (e.lines.getD (e.cursor_row - 1) []).length
    let line := e.lines.getD e.cursor_row []
    let lines1 := e.lines.eraseIdx e.cursor_row
    { e with
        cursor_col := prev_len
        lines := lines1.set (e.cursor_row - 1) (lines1.getD (e.cursor_row - 1) [] ++ line)
        cursor_row := e.cursor_row - 1
        saved := false }
  else
    e

/-! ### Panic-modelling variants

Each `...Checked` function recomputes the corresponding method but returns
`none` exactly where the Rust code would panic: an out-of-bounds
`self.lines[...]` index, the underflow of `self.lines.len() - 1` on an
empty vector, a `Vec::insert`/`Vec::remove` index violation, or a
`String::insert`/`String::remove`/`String::split_off` boundary violation
(which, at character level, is an index beyond the line length). -/

def move_cursorChecked (e : TextEditor) (direction : Direction) :
    Option TextEditor := do
  let e1 ←
    match direction with
    | .up => some { e with cursor_row := e.cursor_row - 1 }
    | .right => some { e with cursor_col := e.cursor_col + 1 }
    | .down => some { e with cursor_row := e.cursor_row + 1 }
    | .left => some { e with cursor_col := e.cursor_col - 1 }
    | .front => some { e with cursor_col := 0 }
    | .back => do
      let cur ← e.lines[e.cursor_row]?
      some { e with cursor_col := cur.length }
  let e2 ←
    if e1.cursor_row ≥ e1.lines.length then
      -- `self.lines.len() - 1` underflows when the vector is empty
      if e1.lines.length = 0 then none
      else some { e1 with cursor_row := e1.lines.length - 1 }
    else some e1
  let current_line ← e2.lines[e2.cursor_row]?
  if e2.cursor_col > current_line.length then
    some { e2 with cursor_col := current_line.length }
  else some e2

def insert_new_lineChecked (e : TextEditor) : Option TextEditor := do
  let e1 ←
    if e.cursor_col = 0 then
      if e.cursor_row ≤ e.lines.length then
        some { e with lines := e.lines.insertIdx e.cursor_row [] }
      else none
    else do
      let cur ← e.lines[e.cursor_row]?
      if e.cursor_col = cur.length then
        if e.cursor_row + 1 ≤ e.lines.length then
          some { e with lines := e.lines.insertIdx (e.cursor_row + 1) [] }
        else none
      else
        if e.cursor_col ≤ cur.length then
          if e.cursor_row + 1 ≤ e.lines.length then
            some { e with
                lines :=
                  (e.lines.set e.cursor_row (cur.take e.cursor_col)).insertIdx
                    (e.cursor_row + 1) (cur.drop e.cursor_col) }
          else none
        else none
  some { e1 with cursor_row := e1.cursor_row + 1, cursor_col := 0, saved := false }

def clear_lineChecked (e : TextEditor) : Option TextEditor := do
  let _ ← e.lines[e.cursor_row]?
  some { e with lines := e.lines.set e.cursor_row [], cursor_col := 0 }

def insert_charChecked (e : TextEditor) (c : Char) : Option TextEditor := do
  let cur ← e.lines[e.cursor_row]?
  if e.cursor_col ≤ cur.length then
    some { e with
        lines := e.lines.set e.cursor_row (cur.insertIdx e.cursor_col c)
        cursor_col := e.cursor_col + 1
        saved := false }
  else none

def erase_charChecked (e : TextEditor) : Option TextEditor := do
  if e.cursor_col > 0 then do
    let cur ← e.lines[e.cursor_row]?
    if e.cursor_col - 1 < cur.length then
      some { e with
          lines := e.lines.set e.cursor_row (cur.eraseIdx (e.cursor_col - 1))
          cursor_col := e.cursor_col - 1
          saved := false }
    else none
  else if e.cursor_row > 0 then do
    let prev ← e.lines[e.cursor_row - 1]?
    let line ← e.lines[e.cursor_row]?
    let lines1 := e.lines.eraseIdx e.cursor_row
    let prev1 ← lines1[e.cursor_row - 1]?
    some { e with
        cursor_col := prev.length
        lines := lines1.set (e.cursor_row - 1) (prev1 ++ line)
        cursor_row := e.cursor_row - 1
        saved := false }
  else some e

/-- `TextEditor::get_line_number_width`: decimal digit count of
`lines.len()`. -/
def get_line_number_width (e : TextEditor) : Nat :=
  (Nat.toDigits 10 e.lines.length).length

/-- The logical Move/Insert/Backspace commands quantified over in the
spec's invariant property, mapped to the Edit Engine methods the key
handler invokes for them. -/
inductive EditCmd where
  | move (d : Direction)
  | insertChar (c : Char)
  | insertNewline
  | backspace
  deriving Repr, DecidableEq

def applyCmd (e : TextEditor) (c : EditCmd) : TextEditor :=
  match c with
  | .move d => e.move_cursor d
  | .insertChar ch => e.insert_char ch
  | .insertNewline => e.insert_new_line
  | .backspace => e.erase_char

/-- The key events `TextEditor::handle_key` distinguishes.  `charKey c ctrl`
is `KeyCode::Char(c)` with the CONTROL modifier flag; `other` stands for
every other `KeyCode` (the `_ => {}` arm). -/
inductive Key where
  | charKey (c : Char) (ctrl : Bool)
  | esc
  | up
  | down
  | left
  | right
  | home
  | endKey
  | enter
  | backspace
  | other
  deriving Repr, DecidableEq

/-- `TextEditor::handle_key`, following the `match` arms in source order
(the guards on distinct `KeyCode`s are order-independent).  After the
match, `cursor_col_offset` is unconditionally recomputed. -/
def handle_key (e : TextEditor) (k : Key) : TextEditor :=
  let e1 :=
    match k with
    | .charKey c ctrl =>
      if ctrl ∧ c = 's' then e.save
      else if ctrl ∧ c = 'q' then { e with alive := false }
      else if ctrl ∧ c = 'a' then e.move_cursor .front
      else if ctrl ∧ c = 'e' then e.move_cursor .back
      else if ctrl ∧ c = 'u' then e.clear_line
      else e.insert_char c
    | .esc => if e.saved then { e with alive := false } else e
    | .up => e.move_cursor .up
    | .right => e.move_cursor .right
    | .down => e.move_cursor .down
    | .left => e.move_cursor .left
    | .home => e.move_cursor .front
    | .endKey => e.move_cursor .back
    | .enter => e.insert_new_line
    | .backspace => e.erase_char
    | .other => e
  { e1 with cursor_col_offset := e1.get_line_number_width + 1 }

/-! ### Helper lemmas on lists -/

theorem getD_set_self {l : List Line} {i : Nat} {x : Line} (h : i < l.length) :
    (l.set i x).getD i [] = x := by
  simp [List.getD_eq_getElem?_getD, List.getElem?_set_self', h]

theorem getD_eraseIdx_of_lt {l : List Line} {i j : Nat} (h : j < i) :
    (l.eraseIdx i).getD j [] = l.getD j [] := by
  simp [List.getD_eq_getElem?_getD, List.getElem?_eraseIdx_of_lt l i j h]

theorem getElem?_insertIdx_of_lt (l : List Line) (x : Line) :
    ∀ n k : Nat, k < n → (l.insertIdx n x)[k]? = l[k]? := by
  induction l with
  | nil =>
    intro n k h
    cases n with
    | zero => omega
    | succ m => rw [List.insertIdx_succ_nil]
  | cons hd tl ih =>
    intro n k h
    cases n with
    | zero => omega
    | succ m =>
      rw [List.insertIdx_succ_cons]
      cases k with
      | zero => simp
      | succ j =>
        simp only [List.getElem?_cons_succ]
        exact ih m j (by omega)

theorem getD_insertIdx_of_lt {l : List Line} {x : Line} {n k : Nat} (h : k < n) :
    (l.insertIdx n x).getD k [] = l.getD k [] := by
  simp [List.getD_eq_getElem?_getD, getElem?_insertIdx_of_lt l x n k h]

theorem getD_insertIdx_self {l : List Line} {x : Line} {n : Nat} (h : n ≤ l.length) :
    (l.insertIdx n x).getD n [] = x := by
  have hl : n < (l.insertIdx n x).length := by
    rw [List.length_insertIdx n l h]; omega
  rw [List.getD_eq_getElem?_getD, List.getElem?_eq_getElem hl]
  simp [List.getElem_insertIdx_self l x n h]

theorem set_getD_self {l : List Line} {n : Nat} (h : n < l.length) :
    l.set n (l.getD n []) = l := by
  apply List.ext_getElem?
  intro i
  by_cases hi : n = i
  · subst hi
    rw [List.getElem?_set_self']
    simp [List.getD_eq_getElem?_getD, List.getElem?_eq_getElem h, h]
  · exact List.getElem?_set_ne hi

theorem getElem?_eq_some_getD {l : List Line} {r : Nat} (h : r < l.length) :
    l[r]? = some (l.getD r []) := by
  rw [List.getElem?_eq_getElem h, List.getD_eq_getElem?_getD,
    List.getElem?_eq_getElem h]
  rfl

/-! ### Invariant preservation -/

theorem clampState_fields (e : TextEditor) :
    (clampState e).lines = e.lines ∧ (clampState e).saved = e.saved ∧
      (clampState e).alive = e.alive := by
  unfold clampState
  dsimp only
  split <;> split <;> simp

theorem clampState_inv (e : TextEditor) (h0 : 0 < e.lines.length) :
    (clampState e).cursorInv := by
  unfold clampState cursorInv
  dsimp only
  split <;> split <;> simp_all

theorem move_cursor_fields (e : TextEditor) (d : Direction) :
    (e.move_cursor d).lines = e.lines ∧ (e.move_cursor d).saved = e.saved ∧
      (e.move_cursor d).alive = e.alive := by
  cases d <;> simpa using clampState_fields _

theorem move_cursor_inv (e : TextEditor) (h0 : 0 < e.lines.length)
    (d : Direction) : (e.move_cursor d).cursorInv := by
  cases d <;> exact clampState_inv _ (by simpa using h0)

theorem insert_char_inv (e : TextEditor) (h : e.cursorInv) (c : Char) :
    (e.insert_char c).cursorInv := by
  obtain ⟨h1, h2⟩ := h
  unfold insert_char cursorInv
  dsimp only
  refine ⟨by simpa using h1, ?_⟩
  rw [getD_set_self (by simpa using h1),
    List.length_insertIdx e.cursor_col _ h2]
  omega

theorem insert_new_line_inv (e : TextEditor) (h : e.cursorInv) :
    e.insert_new_line.cursorInv := by
  obtain ⟨h1, h2⟩ := h
  unfold insert_new_line cursorInv
  dsimp only
  split
  · refine ⟨?_, Nat.zero_le _⟩
    simp only [List.length_insertIdx e.cursor_row _ (Nat.le_of_lt h1)]
    omega
  · split
    · refine ⟨?_, Nat.zero_le _⟩
      simp only [List.length_insertIdx (e.cursor_row + 1) _ h1]
      omega
    · refine ⟨?_, Nat.zero_le _⟩
      rw [List.length_insertIdx (e.cursor_row + 1) _ (by simpa using h1)]
      simp only [List.length_set]
      omega

theorem erase_char_inv (e : TextEditor) (h : e.cursorInv) :
    e.erase_char.cursorInv := by
  obtain ⟨h1, h2⟩ := h
  unfold erase_char cursorInv
  dsimp only
  split
  · refine ⟨by simpa using h1, ?_⟩
    dsimp only
    rw [getD_set_self (by simpa using h1), List.length_eraseIdx]
    have hlt : e.cursor_col - 1 < (e.lines.getD e.cursor_row []).length := by
      omega
    rw [if_pos hlt]
    omega
  · split
    · have hlen1 : (e.lines.eraseIdx e.cursor_row).length = e.lines.length - 1 := by
        rw [List.length_eraseIdx, if_pos h1]
      have hrow : e.cursor_row - 1 < (e.lines.eraseIdx e.cursor_row).length := by
        omega
      refine ⟨by simpa [hlen1] using hrow, ?_⟩
      rw [getD_set_self hrow,
        getD_eraseIdx_of_lt (show e.cursor_row - 1 < e.cursor_row by omega)]
      simp
    · exact ⟨h1, h2⟩

theorem applyCmd_inv (e : TextEditor) (h : e.cursorInv) (c : EditCmd) :
    (applyCmd e c).cursorInv := by
  cases c with
  | move d => exact move_cursor_inv e (Nat.lt_of_le_of_lt (Nat.zero_le _) h.1) d
  | insertChar ch => exact insert_char_inv e h ch
  | insertNewline => exact insert_new_line_inv e h
  | backspace => exact erase_char_inv e h

/-! ### The checked variants agree with the methods on invariant states -/

theorem move_cursorChecked_eq (e : TextEditor) (h : e.cursorInv) (d : Direction) :
    e.move_cursorChecked d = some (e.move_cursor d) := by
  obtain ⟨h1, h2⟩ := h
  have hnot : ¬ e.cursor_row ≥ e.lines.length := by omega
  cases d
  case up =>
    have hup : ¬ e.cursor_row - 1 ≥ e.lines.length := by omega
    simp only [move_cursorChecked, move_cursor, clampState, Option.pure_def,
      Option.bind_eq_bind, Option.some_bind, if_neg hup,
      getElem?_eq_some_getD (show e.cursor_row - 1 < e.lines.length by omega)]
    split <;> rfl
  case right =>
    simp only [move_cursorChecked, move_cursor, clampState, Option.pure_def,
      Option.bind_eq_bind, Option.some_bind, if_neg hnot,
      getElem?_eq_some_getD h1]
    split <;> rfl
  case down =>
    by_cases hd : e.cursor_row + 1 ≥ e.lines.length
    · simp only [move_cursorChecked, move_cursor, clampState, Option.pure_def,
        Option.bind_eq_bind, Option.some_bind, if_pos hd,
        if_neg (show ¬ e.lines.length = 0 by omega),
        getElem?_eq_some_getD (show e.lines.length - 1 < e.lines.length by omega)]
      split <;> rfl
    · simp only [move_cursorChecked, move_cursor, clampState, Option.pure_def,
        Option.bind_eq_bind, Option.some_bind, if_neg hd,
        getElem?_eq_some_getD (show e.cursor_row + 1 < e.lines.length by omega)]
      split <;> rfl
  case left =>
    simp only [move_cursorChecked, move_cursor, clampState, Option.pure_def,
      Option.bind_eq_bind, Option.some_bind, if_neg hnot,
      getElem?_eq_some_getD h1]
    split <;> rfl
  case front =>
    simp only [move_cursorChecked, move_cursor, clampState, Option.pure_def,
      Option.bind_eq_bind, Option.some_bind, if_neg hnot,
      getElem?_eq_some_getD h1]
    split <;> rfl
  case back =>
    simp only [move_cursorChecked, move_cursor, clampState, Option.pure_def,
      Option.bind_eq_bind, Option.some_bind, if_neg hnot,
      getElem?_eq_some_getD h1]
    split <;> rfl

theorem insert_charChecked_eq (e : TextEditor) (h : e.cursorInv) (c : Char) :
    e.insert_charChecked c = some (e.insert_char c) := by
  obtain ⟨h1, h2⟩ := h
  simp only [insert_charChecked, insert_char, Option.pure_def,
    Option.bind_eq_bind, Option.some_bind, getElem?_eq_some_getD h1, if_pos h2]

theorem insert_new_lineChecked_eq (e : TextEditor) (h : e.cursorInv) :
    e.insert_new_lineChecked = some e.insert_new_line := by
  obtain ⟨h1, h2⟩ := h
  by_cases h0 : e.cursor_col = 0
  · simp only [insert_new_lineChecked, insert_new_line, Option.pure_def,
      Option.bind_eq_bind, Option.some_bind, if_pos h0,
      if_pos (show e.cursor_row ≤ e.lines.length by omega)]
  · by_cases hlen : e.cursor_col = (e.lines.getD e.cursor_row []).length
    · simp only [insert_new_lineChecked, insert_new_line, Option.pure_def,
        Option.bind_eq_bind, Option.some_bind, if_neg h0,
        getElem?_eq_some_getD h1, if_pos hlen,
        if_pos (show e.cursor_row + 1 ≤ e.lines.length by omega)]
    · simp only [insert_new_lineChecked, insert_new_line, Option.pure_def,
        Option.bind_eq_bind, Option.some_bind, if_neg h0,
        getElem?_eq_some_getD h1, if_neg hlen, if_pos h2,
        if_pos (show e.cursor_row + 1 ≤ e.lines.length by omega)]

theorem clear_lineChecked_eq (e : TextEditor) (h : e.cursorInv) :
    e.clear_lineChecked = some e.clear_line := by
  obtain ⟨h1, h2⟩ := h
  simp only [clear_lineChecked, clear_line, Option.pure_def,
    Option.bind_eq_bind, Option.some_bind, getElem?_eq_some_getD h1]

theorem erase_charChecked_eq (e : TextEditor) (h : e.cursorInv) :
    e.erase_charChecked = some e.erase_char := by
  obtain ⟨h1, h2⟩ := h
  by_cases hc : e.cursor_col > 0
  · simp only [erase_charChecked, erase_char, Option.pure_def,
      Option.bind_eq_bind, Option.some_bind, if_pos hc,
      getElem?_eq_some_getD h1,
      if_pos (show e.cursor_col - 1 < (e.lines.getD e.cursor_row []).length by
        omega)]
  · by_cases hr : e.cursor_row > 0
    · have hlen1 : (e.lines.eraseIdx e.cursor_row).length = e.lines.length - 1 := by
        rw [List.length_eraseIdx, if_pos h1]
      simp only [erase_charChecked, erase_char, Option.pure_def,
        Option.bind_eq_bind, Option.some_bind, if_neg hc, if_pos hr,
        getElem?_eq_some_getD h1,
        getElem?_eq_some_getD (show e.cursor_row - 1 < e.lines.length by omega),
        getElem?_eq_some_getD
          (show e.cursor_row - 1 < (e.lines.eraseIdx e.cursor_row).length by
            omega)]
    · simp only [erase_charChecked, erase_char, Option.pure_def,
        Option.bind_eq_bind, Option.some_bind, if_neg hc, if_neg hr]

theorem move_cursorChecked_none (e : TextEditor) (h : e.lines = [])
    (d : Direction) : e.move_cursorChecked d = none := by
  cases d <;> simp [move_cursorChecked, h, Nat.le_zero]

/-! ### Claims -/

/-- C1: for every sequence of Move/Insert/Backspace commands applied to a
document satisfying the cursor invariant, the invariant
`0 ≤ row < len(lines)` and `0 ≤ col ≤ len(lines[row])` holds again after
each command (the state after any command of the sequence is the fold of
the corresponding prefix). -/
theorem cursorInv_after_commands (e : TextEditor) (h : e.cursorInv)
    (cs : List EditCmd) : (cs.foldl applyCmd e).cursorInv := by
  induction cs generalizing e with
  | nil => exact h
  | cons c cs ih => exact ih _ (applyCmd_inv e h c)

theorem cursorInv_after_commands_witness :
    (TextEditor.open_file false []).cursorInv ∧
      (([.insertChar 'h', .insertChar 'i', .insertNewline, .backspace,
          .move .up, .move .left] : List TextEditor.EditCmd).foldl
        TextEditor.applyCmd (TextEditor.open_file false [])).cursorInv :=
  ⟨by decide, TextEditor.cursorInv_after_commands _ (by decide) _⟩

/-- C2: the claim says `lines` is never empty, in particular
`len(lines) ≥ 1` right after `Open` on an existing file with empty
contents.  The code violates this: `fs::read_to_string` returns `""`,
`"".lines()` is the empty iterator, so `lines = []`; a subsequent
`move_cursor` then panics (`self.lines.len() - 1` underflow and
out-of-bounds index), as `move_cursorChecked = none` records. -/
theorem open_file_empty_contents_breaks_invariant :
    (TextEditor.open_file true []).lines = [] ∧
      ¬ 1 ≤ (TextEditor.open_file true []).lines.length ∧
      TextEditor.move_cursorChecked (TextEditor.open_file true []) .up = none := by
  decide

/-- C3: ClearLine truncates the current line, sets `col = 0`, leaves `row`
and the number of lines unchanged — but the code does **not** mark the
document dirty: `TextEditor::clear_line` never assigns `self.saved`,
unlike every other mutating method.  Evaluated on a saved document
`["ab"]` with cursor `(0, 2)`. -/
theorem clear_line_leaves_saved :
    (TextEditor.clear_line
        { alive := true, saved := true, lines := [['a', 'b']],
          cursor_row := 0, cursor_col := 2, cursor_col_offset := 2 }) =
      { alive := true, saved := true, lines := [[]],
        cursor_row := 0, cursor_col := 0, cursor_col_offset := 2 } := by
  decide

/-- C4: Backspace has exactly three behaviors: with `col > 0` it removes
the character at `col - 1`, decrements `col` and marks dirty; with
`col = 0 < row` it appends the current line onto the previous line,
removes the current line, sets `col` to the pre-merge previous line's
length, decrements `row` and marks dirty; at `(0,0)` it is a complete
no-op, dirty flag included. -/
theorem erase_char_spec (e : TextEditor) :
    (0 < e.cursor_col →
      e.erase_char =
        { e with
            lines := e.lines.set e.cursor_row
              ((e.lines.getD e.cursor_row []).eraseIdx (e.cursor_col - 1))
            cursor_col := e.cursor_col - 1
            saved := false }) ∧
    (e.cursor_col = 0 → 0 < e.cursor_row →
      e.erase_char =
        { e with
            lines := (e.lines.eraseIdx e.cursor_row).set (e.cursor_row - 1)
              (e.lines.getD (e.cursor_row - 1) [] ++ e.lines.getD e.cursor_row [])
            cursor_row := e.cursor_row - 1
            cursor_col := (e.lines.getD (e.cursor_row - 1) []).length
            saved := false }) ∧
    (e.cursor_col = 0 → e.cursor_row = 0 → e.erase_char = e) := by
  refine ⟨fun h => ?_, fun h0 hr => ?_, fun h0 hr => ?_⟩
  · simp only [erase_char, if_pos h]
  · have hc : ¬ e.cursor_col > 0 := by omega
    simp only [erase_char, if_neg hc, if_pos hr]
    rw [getD_eraseIdx_of_lt (show e.cursor_row - 1 < e.cursor_row by omega)]
  · have hc : ¬ e.cursor_col > 0 := by omega
    have hr' : ¬ e.cursor_row > 0 := by omega
    simp only [erase_char, if_neg hc, if_neg hr']

theorem erase_char_spec_witness :
    (TextEditor.erase_char
        { alive := true, saved := true, lines := [['a', 'b']],
          cursor_row := 0, cursor_col := 2, cursor_col_offset := 2 } =
      { alive := true, saved := false, lines := [['a']],
        cursor_row := 0, cursor_col := 1, cursor_col_offset := 2 }) ∧
    (TextEditor.erase_char
        { alive := true, saved := true, lines := [['a', 'b'], ['c', 'd']],
          cursor_row := 1, cursor_col := 0, cursor_col_offset := 2 } =
      { alive := true, saved := false, lines := [['a', 'b', 'c', 'd']],
        cursor_row := 0, cursor_col := 2, cursor_col_offset := 2 }) ∧
    (TextEditor.erase_char
        { alive := true, saved := true, lines := [['a']],
          cursor_row := 0, cursor_col := 0, cursor_col_offset := 2 } =
      { alive := true, saved := true, lines := [['a']],
        cursor_row := 0, cursor_col := 0, cursor_col_offset := 2 }) := by
  refine ⟨?_, ?_, ?_⟩
  · rw [(TextEditor.erase_char_spec _).1 (by decide)]; decide
  · rw [(TextEditor.erase_char_spec _).2.1 (by decide) (by decide)]; decide
  · rw [(TextEditor.erase_char_spec _).2.2 (by decide) (by decide)]

/-- C5: InsertNewline splits the current line at `col`: at `col = 0` an
empty line is inserted before the current row; at `col = len(line)` (with
`col > 0`) an empty line is inserted after it; otherwise
(`0 < col < len(line)`) the suffix from `col` becomes a new line inserted
right after the current row and the current line keeps its first `col`
characters.  In all cases `row` increases by 1, `col` becomes 0, and the
document is marked dirty. -/
theorem insert_new_line_spec (e : TextEditor) :
    (e.cursor_col = 0 →
      e.insert_new_line =
        { e with
            lines := e.lines.insertIdx e.cursor_row []
            cursor_row := e.cursor_row + 1
            cursor_col := 0
            saved := false }) ∧
    (0 < e.cursor_col → e.cursor_col = (e.lines.getD e.cursor_row []).length →
      e.insert_new_line =
        { e with
            lines := e.lines.insertIdx (e.cursor_row + 1) []
            cursor_row := e.cursor_row + 1
            cursor_col := 0
            saved := false }) ∧
    (0 < e.cursor_col → e.cursor_col < (e.lines.getD e.cursor_row []).length →
      e.insert_new_line =
        { e with
            lines := (e.lines.set e.cursor_row
                ((e.lines.getD e.cursor_row []).take e.cursor_col)).insertIdx
              (e.cursor_row + 1) ((e.lines.getD e.cursor_row []).drop e.cursor_col)
            cursor_row := e.cursor_row + 1
            cursor_col := 0
            saved := false }) := by
  refine ⟨fun h => ?_, fun h0 hlen => ?_, fun h0 hlen => ?_⟩
  · simp only [insert_new_line, if_pos h]
  · have h0' : ¬ e.cursor_col = 0 := by omega
    simp only [insert_new_line, if_neg h0', if_pos hlen]
  · have h0' : ¬ e.cursor_col = 0 := by omega
    have hne : ¬ e.cursor_col = (e.lines.getD e.cursor_row []).length := by omega
    simp only [insert_new_line, if_neg h0', if_neg hne]

theorem insert_new_line_spec_witness :
    (TextEditor.insert_new_line
        { alive := true, saved := true, lines := [['a', 'b']],
          cursor_row := 0, cursor_col := 0, cursor_col_offset := 2 } =
      { alive := true, saved := false, lines := [[], ['a', 'b']],
        cursor_row := 1, cursor_col := 0, cursor_col_offset := 2 }) ∧
    (TextEditor.insert_new_line
        { alive := true, saved := true, lines := [['a', 'b']],
          cursor_row := 0, cursor_col := 2, cursor_col_offset := 2 } =
      { alive := true, saved := false, lines := [['a', 'b'], []],
        cursor_row := 1, cursor_col := 0, cursor_col_offset := 2 }) ∧
    (TextEditor.insert_new_line
        { alive := true, saved := true, lines := [['a', 'b']],
          cursor_row := 0, cursor_col := 1, cursor_col_offset := 2 } =
      { alive := true, saved := false, lines := [['a'], ['b']],
        cursor_row := 1, cursor_col := 0, cursor_col_offset := 2 }) := by
  refine ⟨?_, ?_, ?_⟩
  · rw [(TextEditor.insert_new_line_spec _).1 (by decide)]; decide
  · rw [(TextEditor.insert_new_line_spec _).2.1 (by decide) (by decide)]; decide
  · rw [(TextEditor.insert_new_line_spec _).2.2 (by decide) (by decide)]; decide

/-- C8: each of MoveUp/MoveDown/MoveLeft/MoveRight decrements or
increments `row`/`col` by 1 saturating at 0 (`Nat` subtraction saturates;
no underflow fault, witnessed by the checked variant returning `some`),
then clamps the cursor to the valid range (the result satisfies the
cursor invariant); no move marks the document dirty or changes the lines,
for every state satisfying the cursor invariant. -/
theorem move_cursor_saturating_clamp (e : TextEditor) (h : e.cursorInv) :
    (e.move_cursor .up = clampState { e with cursor_row := e.cursor_row - 1 } ∧
      e.move_cursor .down = clampState { e with cursor_row := e.cursor_row + 1 } ∧
      e.move_cursor .left = clampState { e with cursor_col := e.cursor_col - 1 } ∧
      e.move_cursor .right = clampState { e with cursor_col := e.cursor_col + 1 }) ∧
    (∀ d, (e.move_cursor d).lines = e.lines ∧
      (e.move_cursor d).saved = e.saved) ∧
    (∀ d, (e.move_cursor d).cursorInv) ∧
    (∀ d, e.move_cursorChecked d = some (e.move_cursor d)) :=
  ⟨⟨rfl, rfl, rfl, rfl⟩,
    fun d => ⟨(move_cursor_fields e d).1, (move_cursor_fields e d).2.1⟩,
    fun d => move_cursor_inv e (Nat.lt_of_le_of_lt (Nat.zero_le _) h.1) d,
    fun d => move_cursorChecked_eq e h d⟩

theorem move_cursor_saturating_clamp_witness :
    TextEditor.cursorInv
        { alive := true, saved := true, lines := [['a'], ['b', 'c']],
          cursor_row := 1, cursor_col := 2, cursor_col_offset := 2 } ∧
      TextEditor.move_cursor
          { alive := true, saved := true, lines := [['a'], ['b', 'c']],
            cursor_row := 1, cursor_col := 2, cursor_col_offset := 2 } .up =
        TextEditor.clampState
          { alive := true, saved := true, lines := [['a'], ['b', 'c']],
            cursor_row := 0, cursor_col := 2, cursor_col_offset := 2 } :=
  ⟨by decide,
    (TextEditor.move_cursor_saturating_clamp _ (by decide)).1.1⟩

/-- C9: Quit (Esc) is honored only when the document is not dirty
(`saved = true`): on a dirty document Esc leaves the whole editor state
unchanged (the hypothesis that `cursor_col_offset` is consistent holds in
every reachable state, since `handle_key` recomputes it after every key),
while Ctrl-Q sets `alive = false` regardless of the dirty flag. -/
theorem quit_only_when_saved (e : TextEditor)
    (hoff : e.cursor_col_offset = e.get_line_number_width + 1) :
    (e.saved = false → e.handle_key .esc = e) ∧
    (e.saved = true → (e.handle_key .esc).alive = false) ∧
    ((e.handle_key (.charKey 'q' true)).alive = false) := by
  refine ⟨fun hs => ?_, fun hs => ?_, ?_⟩
  · simp only [handle_key, hs, Bool.false_eq_true, if_false]
    rw [← hoff, ← hs]
  · simp [handle_key, hs]
  · simp only [handle_key]
    rw [if_neg (by decide), if_pos (by decide)]

theorem quit_only_when_saved_witness :
    ((TextEditor.open_file false []).cursor_col_offset =
        (TextEditor.open_file false []).get_line_number_width + 1) ∧
      ((TextEditor.open_file false []).handle_key .esc =
        TextEditor.open_file false []) ∧
      (((TextEditor.open_file false []).handle_key
          (.charKey 'q' true)).alive = false) :=
  ⟨by decide,
    (TextEditor.quit_only_when_saved _ (by decide)).1 (by decide),
    (TextEditor.quit_only_when_saved _ (by decide)).2.2⟩

/-- C10: under the precondition that the cursor invariant holds (which
forces `lines` non-empty), every Edit Engine operation runs without a
panic: each checked variant returns `some` of the total method's result.
Conversely the non-emptiness is necessary: on `lines = []`,
`move_cursor` would panic for every direction (it computes
`self.lines.len() - 1` and indexes `self.lines[self.cursor_row]`
unconditionally), so its checked variant returns `none`. -/
theorem edit_ops_no_panic (e : TextEditor) (h : e.cursorInv) :
    (∀ d, e.move_cursorChecked d = some (e.move_cursor d)) ∧
    (∀ c, e.insert_charChecked c = some (e.insert_char c)) ∧
    e.insert_new_lineChecked = some e.insert_new_line ∧
    e.erase_charChecked = some e.erase_char ∧
    e.clear_lineChecked = some e.clear_line ∧
    ∀ e2 : TextEditor, e2.lines = [] → ∀ d, e2.move_cursorChecked d = none :=
  ⟨fun d => move_cursorChecked_eq e h d,
    fun c => insert_charChecked_eq e h c,
    insert_new_lineChecked_eq e h,
    erase_charChecked_eq e h,
    clear_lineChecked_eq e h,
    fun e2 h2 d => move_cursorChecked_none e2 h2 d⟩

theorem edit_ops_no_panic_witness :
    TextEditor.cursorInv
        { alive := true, saved := true, lines := [['a', 'b']],
          cursor_row := 0, cursor_col := 1, cursor_col_offset := 2 } ∧
      TextEditor.erase_charChecked
          { alive := true, saved := true, lines := [['a', 'b']],
            cursor_row := 0, cursor_col := 1, cursor_col_offset := 2 } =
        some (TextEditor.erase_char
          { alive := true, saved := true, lines := [['a', 'b']],
            cursor_row := 0, cursor_col := 1, cursor_col_offset := 2 }) :=
  ⟨by decide, (TextEditor.edit_ops_no_panic _ (by decide)).2.2.2.1⟩

/-- C6: for every line and every `col` strictly inside it, InsertNewline
followed by Backspace restores the original lines and cursor (only the
dirty flag changes, both operations marking the document dirty). -/
theorem insert_then_erase_restores (e : TextEditor) (h : e.cursorInv)
    (hc : 0 < e.cursor_col)
    (hlt : e.cursor_col < (e.lines.getD e.cursor_row []).length) :
    e.insert_new_line.erase_char = { e with saved := false } := by
  obtain ⟨h1, h2⟩ := h
  have h0 : ¬ e.cursor_col = 0 := by omega
  have hne : ¬ e.cursor_col = (e.lines.getD e.cursor_row []).length := by omega
  simp only [insert_new_line, if_neg h0, if_neg hne]
  simp only [erase_char]
  rw [if_neg (by simp), if_pos (by simp)]
  simp only [Nat.add_sub_cancel]
  rw [getD_insertIdx_of_lt (Nat.lt_succ_self _),
    getD_insertIdx_self (by simpa using h1),
    List.eraseIdx_insertIdx,
    getD_set_self h1,
    List.take_append_drop,
    List.set_set,
    set_getD_self h1,
    List.length_take,
    Nat.min_eq_left h2]

theorem insert_then_erase_restores_witness :
    (TextEditor.cursorInv
        { alive := true, saved := true,
          lines := [['a', 'b', 'c', 'd', 'e', 'f']],
          cursor_row := 0, cursor_col := 3, cursor_col_offset := 2 } ∧
      TextEditor.insert_new_line
          { alive := true, saved := true,
            lines := [['a', 'b', 'c', 'd', 'e', 'f']],
            cursor_row := 0, cursor_col := 3, cursor_col_offset := 2 } =
        { alive := true, saved := false,
          lines := [['a', 'b', 'c'], ['d', 'e', 'f']],
          cursor_row := 1, cursor_col := 0, cursor_col_offset := 2 }) ∧
      (TextEditor.insert_new_line
          { alive := true, saved := true,
            lines := [['a', 'b', 'c', 'd', 'e', 'f']],
            cursor_row := 0, cursor_col := 3, cursor_col_offset := 2 }).erase_char =
        { alive := true, saved := false,
          lines := [['a', 'b', 'c', 'd', 'e', 'f']],
          cursor_row := 0, cursor_col := 3, cursor_col_offset := 2 } :=
  ⟨⟨by decide, by decide⟩,
    TextEditor.insert_then_erase_restores _ (by decide) (by decide) (by decide)⟩

/-! ### Save/Open round trip -/

theorem rustLinesAux_append (l : Line) (s : List Char) (acc : List Char)
    (hnl : '\n' ∉ l) :
    rustLinesAux (l ++ '\n' :: s) acc =
      rustLinesStripCR (acc.reverse ++ l) :: rustLinesAux s [] := by
  induction l generalizing acc with
  | nil => simp [rustLinesAux]
  | cons c l ih =>
    have hc : ¬ c = '\n' := fun hh => hnl (hh ▸ List.mem_cons_self c l)
    have hl : '\n' ∉ l := fun hh => hnl (List.mem_cons_of_mem c hh)
    simp only [List.cons_append, rustLinesAux, if_neg hc, List.append_eq]
    rw [ih _ hl]
    simp

theorem rustLines_saveContents (ls : List Line)
    (h : ∀ l ∈ ls, '\n' ∉ l ∧ l.getLast? ≠ some '\r') :
    rustLines (saveContents ls) = ls := by
  induction ls with
  | nil => rfl
  | cons l rest ih =>
    have hl := h l (List.mem_cons_self l rest)
    show rustLinesAux (l ++ '\n' :: saveContents rest) [] = l :: rest
    rw [rustLinesAux_append l _ [] hl.1]
    rw [show rustLinesStripCR (List.reverse [] ++ l) = l by
      simp [rustLinesStripCR, hl.2]]
    exact congrArg (l :: ·) (ih fun x hx => h x (List.mem_cons_of_mem _ hx))

/-- C7 counterexample: the round trip is not the identity for every
document.  The document with the single line `"a\r"` — reachable, e.g. by
opening a file with contents `"a\r\r\n"` — saves as `"a\r\n"`, which
re-opens as the single line `"a"`: Rust's `str::lines()` strips the
`"\r\n"` terminator. -/
theorem save_open_roundtrip_cex :
    (TextEditor.open_file true ['a', '\r', '\r', '\n']).lines = [['a', '\r']] ∧
      (TextEditor.open_file true
        (TextEditor.saveContents [['a', '\r']])).lines = [['a']] ∧
      [['a']] ≠ [['a', '\r']] := by
  decide

/-- C7 (amended): for every document none of whose lines contains a
newline character and none of whose lines ends with a carriage return,
Save followed by Open on the same path reproduces an identical `lines`
sequence. -/
theorem save_open_roundtrip (e : TextEditor)
    (h : ∀ l ∈ e.lines, '\n' ∉ l ∧ l.getLast? ≠ some '\r') :
    (open_file true (saveContents e.lines)).lines = e.lines := by
  simp only [open_file, if_pos]
  exact rustLines_saveContents e.lines h

theorem save_open_roundtrip_witness :
    (∀ l ∈ ([['h', 'i'], []] : List Line),
        '\n' ∉ l ∧ l.getLast? ≠ some '\r') ∧
      (TextEditor.open_file true (TextEditor.saveContents
          (TextEditor.lines
            { alive := true, saved := true, lines := [['h', 'i'], []],
              cursor_row := 0, cursor_col := 0,
              cursor_col_offset := 2 }))).lines = [['h', 'i'], []] :=
  ⟨by decide, TextEditor.save_open_roundtrip _ (by decide)⟩

end TextEditor
